import Mathlib

/-!
# Verification of the go-dhcp-server address pool, DHCP handlers and gateway selector

Shallow embedding of the repository's core logic:
  * `src/dhcp/pool.go`   — `IPPool` and its operations,
  * `src/dhcp/server.go` — server state, `handleRequest`, `handleDecline`,
                           sample history, `GetHistory`,
  * `src/gateway/checker.go` — `GetHealthyGateway`,
  * the config model (`config.go`).

Modelling conventions:
  * IPv4 addresses are the 32-bit numeric value (`Nat`); Go keys maps by
    `ip.String()`, which is injective on 4-byte IPs, so keys are the same `Nat`.
  * Time is an integer count of seconds (`Time := Int`); Go durations become
    second counts (1 hour = 3600).
  * Go maps become association lists with first-match lookup; `insertA`
    overwrites, `eraseA` deletes, mirroring map assignment and `delete`.
  * MAC addresses are normalized at every ingress in Go via
    `net.ParseMAC(..).String()`.  The model restricts inputs to the canonical
    lower-case colon-separated form: `parseMAC` accepts exactly those strings
    (on which Go's normalization is the identity) and rejects the rest.
  * `getServerIP` performs OS interface enumeration; its result is carried as
    the `serverIP` field of the embedded `Server`.
-/

namespace DHCPServer

abbrev Time := Int

/-! ## Association-list maps (Go `map` semantics) -/

def lookupA {α β : Type} [BEq α] : List (α × β) → α → Option β
  | [], _ => none
  | (k, v) :: rest, key => if k == key then some v else lookupA rest key

def eraseA {α β : Type} [BEq α] (l : List (α × β)) (key : α) : List (α × β) :=
  l.filter (fun p => !(p.1 == key))

def insertA {α β : Type} [BEq α] (l : List (α × β)) (key : α) (v : β) : List (α × β) :=
  (key, v) :: eraseA l key

/-! ## MAC parsing (canonical form only; see header) -/

def isHexLower (c : Char) : Bool :=
  c.isDigit || ('a' ≤ c && c ≤ 'f')

/-- Models `net.ParseMAC` followed by `.String()` restricted to canonical
lower-case `xx:xx:xx:xx:xx:xx` inputs, on which the round-trip is the
identity; every other string is rejected (`none`). -/
def parseMAC (s : String) : Option String :=
  match s.data with
  | [a, b, c1, c, d, c2, e, f, c3, g, h, c4, i, j, c5, k, l] =>
    if isHexLower a && isHexLower b && c1 == ':' &&
       isHexLower c && isHexLower d && c2 == ':' &&
       isHexLower e && isHexLower f && c3 == ':' &&
       isHexLower g && isHexLower h && c4 == ':' &&
       isHexLower i && isHexLower j && c5 == ':' &&
       isHexLower k && isHexLower l then some s else none
  | _ => none

/-- Dotted-quad rendering of a 32-bit IP value (`net.IP.String`). -/
def ipStr (ip : Nat) : String :=
  toString (ip / 16777216 % 256) ++ "." ++ toString (ip / 65536 % 256) ++ "." ++
  toString (ip / 256 % 256) ++ "." ++ toString (ip % 256)

/-! ## Config model (`config.go`) -/

structure ServerConfig where
  leaseTime : Int
  allowAnyServerIP : Bool
deriving Repr, DecidableEq

structure NetworkConfig where
  /-- `net.ParseIP(cfg.Network.StartIP)`: `none` models an unparsable string. -/
  startIP : Option Nat
  endIP : Option Nat
deriving Repr, DecidableEq

structure Gateway where
  name : String
  ip : String
  isDefault : Bool
  description : String
  dnsServers : List String
deriving Repr, DecidableEq

structure MACBinding where
  /-- Source field `Alias` (the word alias is a Lean keyword). -/
  aliasName : String
  /-- Raw MAC string, parsed by `parseMAC` at pool construction. -/
  mac : String
  /-- `net.ParseIP(binding.IP)`: `none` models an unparsable string. -/
  ip : Option Nat
  gateway : String
  hostname : String
deriving Repr, DecidableEq

structure Config where
  server : ServerConfig
  network : NetworkConfig
  gateways : List Gateway
  bindings : List MACBinding
deriving Repr, DecidableEq

/-- `Config.GetDefaultGateway`: first gateway with `IsDefault`. -/
def Config.GetDefaultGateway (c : Config) : Option Gateway :=
  c.gateways.find? (fun gw => gw.isDefault)

/-- `Config.FindGatewayByName`. -/
def Config.FindGatewayByName (c : Config) (name : String) : Option Gateway :=
  c.gateways.find? (fun gw => gw.name == name)

/-! ## Leases and the IP pool (`pool.go`) -/

structure IPLease where
  ip : Nat
  mac : String
  hostname : String
  startTime : Time
  leaseTime : Int
  isStatic : Bool
  gateway : String
  gatewayIP : String
deriving Repr, DecidableEq

/-- `IPLease.IsExpired`: static leases never expire; dynamic ones expire when
`now` is strictly after `StartTime + LeaseTime`. -/
def IPLease.IsExpired (lease : IPLease) (now : Time) : Bool :=
  if lease.isStatic then false
  else decide (lease.startTime + lease.leaseTime < now)

structure IPPool where
  startIP : Nat
  endIP : Nat
  leases : List (Nat × IPLease)
  macToIP : List (String × Nat)
  conflictIPs : List (Nat × Time)
  leaseTime : Int
deriving Repr, DecidableEq

/-- `isIPAvailable` (pool.go lines 251-269). -/
def IPPool.isIPAvailable (pool : IPPool) (now : Time) (ip : Nat) : Bool :=
  match lookupA pool.conflictIPs ip with
  | some _ => false
  | none =>
    match lookupA pool.leases ip with
    | none => true
    | some lease => if lease.isStatic then false else lease.IsExpired now

/-- `isIPInRange` (pool.go lines 272-278). -/
def IPPool.isIPInRange (pool : IPPool) (ip : Nat) : Bool :=
  decide (pool.startIP ≤ ip) && decide (ip ≤ pool.endIP)

/-- The loop body of `findAvailableIP`: scan `fuel` consecutive addresses
starting at `i`, returning the first available one. -/
def IPPool.scanAvail (pool : IPPool) (now : Time) : Nat → Nat → Option Nat
  | _, 0 => none
  | i, fuel + 1 =>
    if pool.isIPAvailable now i then some i else pool.scanAvail now (i + 1) fuel

/-- `findAvailableIP` (pool.go lines 217-248): linear ascending scan of the
inclusive range, `nil` when `start > end` or no address is available. -/
def IPPool.findAvailableIP (pool : IPPool) (now : Time) : Option Nat :=
  if pool.endIP < pool.startIP then none
  else pool.scanAvail now pool.startIP (pool.endIP + 1 - pool.startIP)

/-- `allocateIP` (pool.go lines 197-214). -/
def IPPool.allocateIP (pool : IPPool) (now : Time) (ip : Nat) (mac hostname : String) :
    IPLease × IPPool :=
  let lease : IPLease :=
    { ip := ip, mac := mac, hostname := hostname, startTime := now,
      leaseTime := pool.leaseTime, isStatic := false, gateway := "", gatewayIP := "" }
  (lease, { pool with
      leases := insertA pool.leases ip lease,
      macToIP := insertA pool.macToIP mac ip })

/-- Lines 170-193 of `RequestIP`: try the client's requested IP, then fall back
to the linear scan; `none` models the pool-full error. -/
def IPPool.requestNewIP (pool : IPPool) (now : Time) (macStr : String)
    (requestedIP : Option Nat) (hostname : String) : Option IPLease × IPPool :=
  let scan : Option IPLease × IPPool :=
    match pool.findAvailableIP now with
    | none => (none, pool)
    | some newIP =>
      let r := pool.allocateIP now newIP macStr hostname
      (some r.1, r.2)
  match requestedIP with
  | some rip =>
    if rip ≠ 0 && pool.isIPInRange rip && pool.isIPAvailable now rip then
      let r := pool.allocateIP now rip macStr hostname
      (some r.1, r.2)
    else scan
  | none => scan

/-- Deleting `leases[existingIP]` and `macToIP[macStr]` (lines 154-155, 165-166). -/
def IPPool.dropLease (pool : IPPool) (existingIP : Nat) (macStr : String) : IPPool :=
  { pool with
    leases := eraseA pool.leases existingIP,
    macToIP := eraseA pool.macToIP macStr }

/-- `RequestIP` (pool.go lines 125-194); `none` in the first component models
the error returns (invalid MAC, pool full). -/
def IPPool.RequestIP (pool : IPPool) (now : Time) (clientMAC : String)
    (requestedIP : Option Nat) (hostname : String) : Option IPLease × IPPool :=
  match parseMAC clientMAC with
  | none => (none, pool)
  | some macStr =>
    -- static-binding branch (lines 140-145)
    let staticHit : Option IPLease :=
      match lookupA pool.macToIP macStr with
      | some existingIP =>
        match lookupA pool.leases existingIP with
        | some lease => if lease.isStatic then some lease else none
        | none => none
      | none => none
    match staticHit with
    | some lease => (some lease, pool)
    | none =>
      -- dynamic-lease branch (lines 148-168)
      match lookupA pool.macToIP macStr with
      | some existingIP =>
        match lookupA pool.leases existingIP with
        | some lease =>
          if lease.IsExpired now then
            (pool.dropLease existingIP macStr).requestNewIP now macStr requestedIP hostname
          else
            match lookupA pool.conflictIPs existingIP with
            | some _ =>
              (pool.dropLease existingIP macStr).requestNewIP now macStr requestedIP hostname
            | none =>
              let renewed := { lease with startTime := now, hostname := hostname }
              (some renewed,
               { pool with leases := insertA pool.leases existingIP renewed })
        | none =>
          (pool.dropLease existingIP macStr).requestNewIP now macStr requestedIP hostname
      | none => pool.requestNewIP now macStr requestedIP hostname

inductive ReleaseResult
  | ok
  | invalidMAC
  | macNotFound
  | ipNotFound
  | staticBinding
deriving Repr, DecidableEq

/-- `ReleaseIP` (pool.go lines 281-311). -/
def IPPool.ReleaseIP (pool : IPPool) (clientMAC : String) : ReleaseResult × IPPool :=
  match parseMAC clientMAC with
  | none => (.invalidMAC, pool)
  | some macStr =>
    match lookupA pool.macToIP macStr with
    | none => (.macNotFound, pool)
    | some ipStr =>
      match lookupA pool.leases ipStr with
      | none => (.ipNotFound, pool)
      | some lease =>
        if lease.isStatic then (.staticBinding, pool)
        else (.ok, { pool with
            leases := eraseA pool.leases ipStr,
            macToIP := eraseA pool.macToIP macStr })

/-- `MarkIPAsConflict` (pool.go lines 464-470). -/
def IPPool.MarkIPAsConflict (pool : IPPool) (now : Time) (ip : Nat) : IPPool :=
  { pool with conflictIPs := insertA pool.conflictIPs ip now }

/-- `cleanupConflictIPs` (pool.go lines 366-384): drop entries older than 1 h. -/
def IPPool.cleanupConflictIPs (pool : IPPool) (now : Time) : IPPool :=
  { pool with conflictIPs :=
      pool.conflictIPs.filter (fun p => !(decide (p.2 < now - 3600))) }

/-- `CleanupExpiredLeases` (pool.go lines 337-363). -/
def IPPool.CleanupExpiredLeases (pool : IPPool) (now : Time) : IPPool :=
  let expiredMACs :=
    (pool.leases.filter (fun p => !p.2.isStatic && p.2.IsExpired now)).map (fun p => p.2.mac)
  let pool1 := { pool with
    leases := pool.leases.filter (fun p => !(!p.2.isStatic && p.2.IsExpired now)),
    macToIP := pool.macToIP.filter (fun q => !(expiredMACs.contains q.1)) }
  pool1.cleanupConflictIPs now

/-- `RemoveAllLeasesByMAC` (pool.go lines 515-550). -/
def IPPool.RemoveAllLeasesByMAC (pool : IPPool) (clientMAC : String) : Nat × IPPool :=
  match parseMAC clientMAC with
  | none => (0, pool)
  | some macStr =>
    let r1 : Nat × IPPool :=
      match lookupA pool.macToIP macStr with
      | some ipStr =>
        match lookupA pool.leases ipStr with
        | some lease =>
          if !lease.isStatic then
            (1, { pool with
                leases := eraseA pool.leases ipStr,
                macToIP := eraseA pool.macToIP macStr })
          else (0, pool)
        | none => (0, pool)
      | none => (0, pool)
    let pool1 := r1.2
    -- defensive sweep (lines 538-544)
    let hits := pool1.leases.filter (fun p => p.2.mac == macStr && !p.2.isStatic)
    (r1.1 + hits.length,
     { pool1 with
       leases := pool1.leases.filter (fun p => !(p.2.mac == macStr && !p.2.isStatic)),
       macToIP := if hits.isEmpty then pool1.macToIP else eraseA pool1.macToIP macStr })

/-- `initStaticBindings` (pool.go lines 90-122): materialize each binding,
failing on the first syntactically invalid IP or MAC; later bindings with a
duplicate IP or MAC silently overwrite the earlier map entries. -/
def initStaticBindings (now : Time) : IPPool → List MACBinding → Option IPPool
  | pool, [] => some pool
  | pool, b :: rest =>
    match b.ip with
    | none => none
    | some ip =>
      match parseMAC b.mac with
      | none => none
      | some macStr =>
        let lease : IPLease :=
          { ip := ip, mac := macStr, hostname := b.hostname, startTime := now,
            leaseTime := 0, isStatic := true, gateway := b.gateway, gatewayIP := "" }
        initStaticBindings now
          { pool with
            leases := insertA pool.leases ip lease,
            macToIP := insertA pool.macToIP macStr ip }
          rest

/-- `NewIPPool` (pool.go lines 59-87): `none` models the error returns. -/
def NewIPPool (cfg : Config) (now : Time) : Option IPPool :=
  match cfg.network.startIP with
  | none => none
  | some startIP =>
    match cfg.network.endIP with
    | none => none
    | some endIP =>
      initStaticBindings now
        { startIP := startIP, endIP := endIP, leases := [], macToIP := [],
          conflictIPs := [], leaseTime := cfg.server.leaseTime }
        cfg.bindings

/-- A pool mutation, for statements quantifying over operation sequences. -/
inductive PoolOp
  | request (now : Time) (mac : String) (requestedIP : Option Nat) (hostname : String)
  | release (mac : String)
  | markConflict (now : Time) (ip : Nat)
  | cleanup (now : Time)
  | removeAll (mac : String)
deriving Repr

def applyOp (pool : IPPool) : PoolOp → IPPool
  | .request now mac rip h => (pool.RequestIP now mac rip h).2
  | .release mac => (pool.ReleaseIP mac).2
  | .markConflict now ip => pool.MarkIPAsConflict now ip
  | .cleanup now => pool.CleanupExpiredLeases now
  | .removeAll mac => (pool.RemoveAllLeasesByMAC mac).2

def applyOps (pool : IPPool) (ops : List PoolOp) : IPPool :=
  ops.foldl applyOp pool

/-- Every dynamic lease in the pool has an in-range IP (holds in every pool
reachable from `NewIPPool`, since `allocateIP` is only invoked on in-range
addresses). -/
def IPPool.dynamicInRange (pool : IPPool) : Bool :=
  pool.leases.all (fun p =>
    p.2.isStatic || (decide (pool.startIP ≤ p.2.ip) && decide (p.2.ip ≤ pool.endIP)))

/-- Each `leases` entry is keyed by its lease's own IP (`leases: IP → Lease`). -/
def IPPool.wellKeyed (pool : IPPool) : Bool :=
  pool.leases.all (fun p => p.2.ip == p.1)

/-! ## Gateway health checker (`checker.go`) -/

/-- `IsGatewayHealthy` (checker.go lines 73-81): absent names read as `false`. -/
def IsGatewayHealthy (status : List (String × Bool)) (gatewayName : String) : Bool :=
  (lookupA status gatewayName).getD false

/-- `NewHealthChecker`'s status initialization (checker.go lines 37-39). -/
def initialStatus (cfg : Config) : List (String × Bool) :=
  cfg.gateways.map (fun gw => (gw.name, true))

/-- `GetHealthyGateway` (checker.go lines 84-106).  In the final fallback the Go
code dereferences `defaultGW` in a log call, so a config with no default
gateway would panic there; the model returns `none` in that (unreachable under
config validation) case. -/
def GetHealthyGateway (cfg : Config) (status : List (String × Bool))
    (preferredGateway : String) : Option Gateway :=
  if preferredGateway ≠ "" && IsGatewayHealthy status preferredGateway then
    cfg.FindGatewayByName preferredGateway
  else
    match cfg.GetDefaultGateway with
    | some defaultGW =>
      if IsGatewayHealthy status defaultGW.name then some defaultGW
      else
        match cfg.gateways.find? (fun gw => IsGatewayHealthy status gw.name) with
        | some gw => some gw
        | none => some defaultGW
    | none => cfg.gateways.find? (fun gw => IsGatewayHealthy status gw.name)

/-! ## DHCP server (`server.go`) -/

structure HistoryRecord where
  ip : String
  mac : String
  hostname : String
  action : String
  timestamp : Time
  gateway : String
  serverIP : String
deriving Repr, DecidableEq

structure Server where
  cfg : Config
  pool : IPPool
  /-- The health checker's status map. -/
  status : List (String × Bool)
  /-- Result of `getServerIP()` (OS interface detection, held abstract). -/
  serverIP : Nat
  history : List HistoryRecord
  maxHistory : Nat
deriving Repr, DecidableEq

/-- `addHistory` (server.go lines 67-87). -/
def Server.addHistory (s : Server) (now : Time)
    (ip mac hostname action gatewayName : String) : Server :=
  let record : HistoryRecord :=
    { ip := ip, mac := mac, hostname := hostname, action := action,
      timestamp := now, gateway := gatewayName, serverIP := ipStr s.serverIP }
  let h := s.history ++ [record]
  { s with history := if s.maxHistory < h.length then h.drop (h.length - s.maxHistory) else h }

/-- `addSampleHistory` (server.go lines 89-185): the nine fabricated records. -/
def sampleRecords (now : Time) (serverIPStr : String) : List HistoryRecord :=
  [ { ip := "192.168.1.101", mac := "aa:bb:cc:dd:ee:01", hostname := "test-device-01",
      action := "DISCOVER", timestamp := now - 7200, gateway := "main_gateway",
      serverIP := serverIPStr },
    { ip := "192.168.1.101", mac := "aa:bb:cc:dd:ee:01", hostname := "test-device-01",
      action := "REQUEST", timestamp := now - 7200 + 120, gateway := "main_gateway",
      serverIP := serverIPStr },
    { ip := "192.168.1.102", mac := "aa:bb:cc:dd:ee:02", hostname := "laptop-user01",
      action := "DISCOVER", timestamp := now - 2700, gateway := "main_gateway",
      serverIP := serverIPStr },
    { ip := "192.168.1.102", mac := "aa:bb:cc:dd:ee:02", hostname := "laptop-user01",
      action := "REQUEST", timestamp := now - 2580, gateway := "main_gateway",
      serverIP := serverIPStr },
    { ip := "192.168.1.103", mac := "aa:bb:cc:dd:ee:03", hostname := "mobile-device",
      action := "DISCOVER", timestamp := now - 1800, gateway := "main_gateway",
      serverIP := serverIPStr },
    { ip := "192.168.1.103", mac := "aa:bb:cc:dd:ee:03", hostname := "mobile-device",
      action := "REQUEST", timestamp := now - 1680, gateway := "main_gateway",
      serverIP := serverIPStr },
    { ip := "192.168.1.101", mac := "aa:bb:cc:dd:ee:01", hostname := "test-device-01",
      action := "RELEASE", timestamp := now - 900, gateway := "main_gateway",
      serverIP := serverIPStr },
    { ip := "192.168.1.104", mac := "aa:bb:cc:dd:ee:04", hostname := "printer-office",
      action := "DISCOVER", timestamp := now - 300, gateway := "main_gateway",
      serverIP := serverIPStr },
    { ip := "192.168.1.104", mac := "aa:bb:cc:dd:ee:04", hostname := "printer-office",
      action := "REQUEST", timestamp := now - 180, gateway := "main_gateway",
      serverIP := serverIPStr } ]

def Server.addSampleHistory (s : Server) (now : Time) : Server :=
  if s.history.length > 0 then s
  else { s with history := s.history ++ sampleRecords now (ipStr s.serverIP) }

/-- `NewServer` (server.go lines 39-64): build the pool, initialize the health
checker status, then seed the sample history. -/
def NewServer (cfg : Config) (now : Time) (serverIP : Nat) : Option Server :=
  match NewIPPool cfg now with
  | none => none
  | some pool =>
    some (Server.addSampleHistory
      { cfg := cfg, pool := pool, status := initialStatus cfg, serverIP := serverIP,
        history := [], maxHistory := 1000 } now)

/-- `GetHistory` (server.go lines 617-639): newest-first, filtered, limited. -/
def Server.GetHistory (s : Server) (limit : Nat) (macFilter ipFilter : String) :
    List HistoryRecord :=
  ((s.history.reverse.filter (fun r =>
      (macFilter == "" || r.mac == macFilter) &&
      (ipFilter == "" || r.ip == ipFilter))).take limit)

/-- `selectGateway` (server.go lines 527-540). -/
def Server.selectGateway (s : Server) (lease : Option IPLease) : Option Gateway :=
  match lease with
  | none => GetHealthyGateway s.cfg s.status ""
  | some l =>
    if l.isStatic && l.gateway ≠ "" then GetHealthyGateway s.cfg s.status l.gateway
    else GetHealthyGateway s.cfg s.status ""

/-- An inbound DHCPv4 packet, restricted to the fields the handlers read. -/
structure DHCPPacket where
  /-- `req.ClientHWAddr.String()` (canonical form). -/
  clientMAC : String
  /-- Option 50, `req.RequestedIPAddress()`; `none` when absent. -/
  requestedIP : Option Nat
  /-- `req.ClientIPAddr` (ciaddr, `0` when unset). -/
  clientIPAddr : Nat
  /-- Option 54, `req.ServerIdentifier()`; `none` when absent. -/
  serverIdentifier : Option Nat
  hostname : String
deriving Repr, DecidableEq

inductive ReqResult
  /-- `return nil, nil`: no response emitted. -/
  | drop
  | nak (message : String)
  | ack (yourIP : Nat)
deriving Repr, DecidableEq

/-- Lines 341-344: write the selected gateway's IP into the lease. -/
def updateGatewayIP (gw : Option Gateway) (lease : IPLease) : IPLease :=
  match gw with
  | some g => { lease with gatewayIP := g.ip }
  | none => lease

/-- Lines 340-342: the gateway name recorded in the history entry. -/
def gatewayNameOf (gw : Option Gateway) : String :=
  match gw with
  | some g => g.name
  | none => ""

/-- Lines 316-352 of `handleRequest`: everything after the server-identifier
check. -/
def Server.handleRequestBody (s : Server) (now : Time) (req : DHCPPacket) :
    ReqResult × Server :=
  let requestedIP := match req.requestedIP with
    | some r => r
    | none => req.clientIPAddr
  if requestedIP = 0 then (.nak "无效的IP地址", s)
  else
    match lookupA s.pool.leases requestedIP with
    | none => (.nak "租约不存在", s)
    | some lease =>
      if lease.mac ≠ req.clientMAC then (.nak "租约不存在", s)
      else
        let lease1 := if !lease.isStatic then { lease with startTime := now } else lease
        let gw := s.selectGateway (some lease1)
        let lease2 := updateGatewayIP gw lease1
        let s1 := { s with pool :=
          { s.pool with leases := insertA s.pool.leases requestedIP lease2 } }
        let s2 := s1.addHistory now (ipStr lease2.ip) req.clientMAC req.hostname
          "REQUEST" (gatewayNameOf gw)
        (.ack lease2.ip, s2)

/-- `handleRequest` (server.go lines 302-352).  Note the server-identifier
check is unconditional: `ServerConfig.AllowAnyServerIP` is never consulted. -/
def Server.handleRequest (s : Server) (now : Time) (req : DHCPPacket) :
    ReqResult × Server :=
  match req.serverIdentifier with
  | some sid => if sid ≠ s.serverIP then (.drop, s) else s.handleRequestBody now req
  | none => s.handleRequestBody now req

/-- `handleDecline` (server.go lines 374-388): records a history entry and
logs; the pool is not touched. -/
def Server.handleDecline (s : Server) (now : Time) (req : DHCPPacket) : Server :=
  let ripText := match req.requestedIP with
    | some r => ipStr r
    | none => "<nil>"
  s.addHistory now ripText req.clientMAC req.hostname "DECLINE" ""

/-! ## Concrete fixtures for the tests below -/

def emptyPool : IPPool :=
  { startIP := 0, endIP := 0, leases := [], macToIP := [], conflictIPs := [],
    leaseTime := 0 }

def gwMain : Gateway :=
  { name := "main_gateway", ip := "192.168.1.1", isDefault := true,
    description := "", dnsServers := [] }

def cfgBase : Config :=
  { server := { leaseTime := 86400, allowAnyServerIP := false },
    network := { startIP := some 100, endIP := some 200 },
    gateways := [gwMain], bindings := [] }

def dummyServer : Server :=
  { cfg := cfgBase, pool := emptyPool, status := [], serverIP := 0,
    history := [], maxHistory := 0 }

def leaseC1 : IPLease :=
  { ip := 150, mac := "aa:bb:cc:dd:ee:01", hostname := "host1", startTime := 0,
    leaseTime := 86400, isStatic := false, gateway := "", gatewayIP := "" }

def poolC1 : IPPool :=
  { startIP := 100, endIP := 200, leases := [(150, leaseC1)],
    macToIP := [("aa:bb:cc:dd:ee:01", 150)], conflictIPs := [], leaseTime := 86400 }

def srvC1 : Server :=
  { cfg := cfgBase, pool := poolC1, status := [("main_gateway", true)],
    serverIP := 1, history := [], maxHistory := 1000 }

/-- REQUEST from the MAC that holds the lease on 150, asking for IP 160. -/
def pktC1 : DHCPPacket :=
  { clientMAC := "aa:bb:cc:dd:ee:01", requestedIP := some 160, clientIPAddr := 0,
    serverIdentifier := none, hostname := "host1" }

/-- DECLINE of IP 150 by the MAC that holds the lease on it. -/
def pktC2 : DHCPPacket :=
  { clientMAC := "aa:bb:cc:dd:ee:01", requestedIP := some 150, clientIPAddr := 150,
    serverIdentifier := none, hostname := "host1" }

def bindDup1 : MACBinding :=
  { aliasName := "a", mac := "aa:bb:cc:dd:ee:10", ip := some 150, gateway := "",
    hostname := "h1" }

def bindDup2 : MACBinding :=
  { aliasName := "b", mac := "aa:bb:cc:dd:ee:11", ip := some 150, gateway := "",
    hostname := "h2" }

/-- Two reservations sharing IP 150 (and, via `bindDup3`, sharing a MAC). -/
def cfgC3 : Config := { cfgBase with bindings := [bindDup1, bindDup2] }

def bindDup3 : MACBinding :=
  { aliasName := "c", mac := "aa:bb:cc:dd:ee:10", ip := some 160, gateway := "",
    hostname := "h3" }

/-- Two reservations sharing the MAC aa:bb:cc:dd:ee:10. -/
def cfgC3m : Config := { cfgBase with bindings := [bindDup1, bindDup3] }

def bindW1 : MACBinding :=
  { aliasName := "w1", mac := "aa:bb:cc:dd:ee:20", ip := some 120, gateway := "",
    hostname := "wh1" }

def bindW2 : MACBinding :=
  { aliasName := "w2", mac := "aa:bb:cc:dd:ee:21", ip := some 121, gateway := "",
    hostname := "wh2" }

def cfgC3w : Config := { cfgBase with bindings := [bindW1, bindW2] }

def cfgC4 : Config :=
  { cfgBase with server := { leaseTime := 86400, allowAnyServerIP := true } }

def srvC4 : Server :=
  { cfg := cfgC4, pool := poolC1, status := [("main_gateway", true)],
    serverIP := 1, history := [], maxHistory := 1000 }

/-- REQUEST whose server identifier (999) is not ours (1). -/
def pktC4 : DHCPPacket :=
  { clientMAC := "aa:bb:cc:dd:ee:01", requestedIP := some 150, clientIPAddr := 0,
    serverIdentifier := some 999, hostname := "host1" }

def bindOut : MACBinding :=
  { aliasName := "out", mac := "aa:bb:cc:dd:ee:10", ip := some 300, gateway := "",
    hostname := "hout" }

/-- Range [100, 200] with a reservation at 300, outside the range. -/
def cfgC5 : Config := { cfgBase with bindings := [bindOut] }

def poolC5 : IPPool := (NewIPPool cfgC5 0).getD emptyPool

def staticL6 : IPLease :=
  { ip := 150, mac := "aa:bb:cc:dd:ee:10", hostname := "h", startTime := 0,
    leaseTime := 0, isStatic := true, gateway := "", gatewayIP := "" }

def poolC6 : IPPool :=
  { startIP := 100, endIP := 200, leases := [(150, staticL6)],
    macToIP := [("aa:bb:cc:dd:ee:10", 150)], conflictIPs := [], leaseTime := 86400 }

def poolC6m : IPPool := poolC6.MarkIPAsConflict 0 150

def gwA : Gateway :=
  { name := "wan1", ip := "10.0.0.1", isDefault := true, description := "",
    dnsServers := [] }

def gwB : Gateway :=
  { name := "wan2", ip := "10.0.0.2", isDefault := false, description := "",
    dnsServers := [] }

def cfgC7 : Config :=
  { server := { leaseTime := 86400, allowAnyServerIP := false },
    network := { startIP := some 100, endIP := some 200 },
    gateways := [gwA, gwB], bindings := [] }

def statusC7 : List (String × Bool) := [("wan1", false), ("wan2", false)]

def leaseC8 : IPLease :=
  { ip := 130, mac := "aa:bb:cc:dd:ee:08", hostname := "old", startTime := 0,
    leaseTime := 86400, isStatic := false, gateway := "", gatewayIP := "" }

def poolC8 : IPPool :=
  { startIP := 100, endIP := 200, leases := [(130, leaseC8)],
    macToIP := [("aa:bb:cc:dd:ee:08", 130)], conflictIPs := [], leaseTime := 86400 }

def poolC9 : IPPool :=
  { startIP := 100, endIP := 200, leases := [(150, staticL6)],
    macToIP := [("aa:bb:cc:dd:ee:10", 150)], conflictIPs := [], leaseTime := 86400 }

def opsC9 : List PoolOp :=
  [ .request 1 "aa:bb:cc:dd:ee:30" none "d1",
    .markConflict 2 101,
    .request 3 "aa:bb:cc:dd:ee:10" (some 170) "d2",
    .release "aa:bb:cc:dd:ee:10",
    .removeAll "aa:bb:cc:dd:ee:10",
    .cleanup 100000 ]

def cfgC10 : Config := cfgBase

def serverC10 : Server := (NewServer cfgC10 0 1).getD dummyServer

/-! ## Map lemmas -/

theorem lookupA_cons {α β : Type} [BEq α] (k : α) (v : β) (rest : List (α × β)) (key : α) :
    lookupA ((k, v) :: rest) key = if k == key then some v else lookupA rest key := rfl

theorem lookupA_mem {α β : Type} [BEq α] [LawfulBEq α] {l : List (α × β)} {key : α} {v : β}
    (h : lookupA l key = some v) : (key, v) ∈ l := by
  induction l with
  | nil => simp [lookupA] at h
  | cons p rest ih =>
    obtain ⟨k1, v1⟩ := p
    rw [lookupA_cons] at h
    cases hk : (k1 == key) with
    | true =>
      rw [hk, if_pos rfl] at h
      obtain rfl : v1 = v := by injection h
      obtain rfl : k1 = key := eq_of_beq hk
      exact List.mem_cons_self _ _
    | false =>
      rw [hk] at h
      simp only [Bool.false_eq_true, if_false] at h
      exact List.mem_cons_of_mem _ (ih h)

theorem lookupA_eraseA_ne {α β : Type} [BEq α] [LawfulBEq α] (l : List (α × β)) {k key : α}
    (h : ¬(k = key)) : lookupA (eraseA l k) key = lookupA l key := by
  induction l with
  | nil => rfl
  | cons p rest ih =>
    obtain ⟨k1, v1⟩ := p
    rw [eraseA, List.filter_cons]
    cases hk : (k1 == k) with
    | true =>
      have hkk : k1 = k := eq_of_beq hk
      have hne : (k1 == key) = false := beq_eq_false_iff_ne.mpr (by rw [hkk]; exact h)
      simp only [Bool.not_true, Bool.false_eq_true, if_false, lookupA_cons, hne]
      exact ih
    | false =>
      simp only [Bool.not_false, if_true, lookupA_cons]
      cases hk2 : (k1 == key) with
      | true => rfl
      | false =>
        simp only [Bool.false_eq_true, if_false]
        exact ih

theorem lookupA_insertA_self {α β : Type} [BEq α] [LawfulBEq α] (l : List (α × β))
    (k : α) (v : β) : lookupA (insertA l k v) k = some v := by
  rw [insertA, lookupA_cons, if_pos (by simp)]

theorem lookupA_insertA_ne {α β : Type} [BEq α] [LawfulBEq α] (l : List (α × β)) {k key : α}
    (v : β) (h : ¬(k = key)) : lookupA (insertA l k v) key = lookupA l key := by
  rw [insertA, lookupA_cons, if_neg (by simp [h])]
  exact lookupA_eraseA_ne l h

theorem lookupA_filter {α β : Type} [BEq α] [LawfulBEq α] {l : List (α × β)} {key : α} {v : β}
    (p : α × β → Bool) (h : lookupA l key = some v) (hp : p (key, v) = true) :
    lookupA (l.filter p) key = some v := by
  induction l with
  | nil => simp [lookupA] at h
  | cons q rest ih =>
    obtain ⟨k1, v1⟩ := q
    rw [lookupA_cons] at h
    cases hk : (k1 == key) with
    | true =>
      rw [hk, if_pos rfl] at h
      obtain rfl : v1 = v := by injection h
      obtain rfl : k1 = key := eq_of_beq hk
      rw [List.filter_cons, if_pos hp, lookupA_cons, if_pos (by simp)]
    | false =>
      rw [hk] at h
      simp only [Bool.false_eq_true, if_false] at h
      rw [List.filter_cons]
      cases hq : p (k1, v1) with
      | true =>
        rw [if_pos rfl, lookupA_cons, hk]
        simp only [Bool.false_eq_true, if_false]
        exact ih h
      | false =>
        simp only [Bool.false_eq_true, if_false]
        exact ih h

/-! ## Scan lemmas -/

theorem scanAvail_some {pool : IPPool} {now : Time} :
    ∀ (fuel i a : Nat), pool.scanAvail now i fuel = some a →
      i ≤ a ∧ a < i + fuel ∧ pool.isIPAvailable now a = true := by
  intro fuel
  induction fuel with
  | zero => intro i a h; simp [IPPool.scanAvail] at h
  | succ n ih =>
    intro i a h
    rw [IPPool.scanAvail] at h
    cases hav : pool.isIPAvailable now i with
    | true =>
      rw [hav, if_pos rfl] at h
      obtain rfl : i = a := by injection h
      exact ⟨le_refl _, by omega, hav⟩
    | false =>
      rw [hav] at h
      simp only [Bool.false_eq_true, if_false] at h
      obtain ⟨h1, h2, h3⟩ := ih (i + 1) a h
      exact ⟨by omega, by omega, h3⟩

theorem findAvailableIP_some {pool : IPPool} {now : Time} {a : Nat}
    (h : pool.findAvailableIP now = some a) :
    pool.startIP ≤ a ∧ a ≤ pool.endIP ∧ pool.isIPAvailable now a = true := by
  rw [IPPool.findAvailableIP] at h
  by_cases hr : pool.endIP < pool.startIP
  · rw [if_pos hr] at h; exact absurd h (by simp)
  · rw [if_neg hr] at h
    obtain ⟨h1, h2, h3⟩ := scanAvail_some _ _ _ h
    exact ⟨h1, by omega, h3⟩

/-! ## Small facts about the server helpers -/

theorem updateGatewayIP_ip (gw : Option Gateway) (l : IPLease) :
    (updateGatewayIP gw l).ip = l.ip := by cases gw <;> rfl

theorem updateGatewayIP_mac (gw : Option Gateway) (l : IPLease) :
    (updateGatewayIP gw l).mac = l.mac := by cases gw <;> rfl

theorem updateGatewayIP_isStatic (gw : Option Gateway) (l : IPLease) :
    (updateGatewayIP gw l).isStatic = l.isStatic := by cases gw <;> rfl

theorem updateGatewayIP_startTime (gw : Option Gateway) (l : IPLease) :
    (updateGatewayIP gw l).startTime = l.startTime := by cases gw <;> rfl

theorem addHistory_pool (s : Server) (now : Time) (ip mac hostname action gwName : String) :
    (s.addHistory now ip mac hostname action gwName).pool = s.pool := rfl

/-! ## C1: the REQUEST path -/

/-- C1 counterexample: the MAC aa:bb:cc:dd:ee:01 holds the pool lease on
address 150, yet a REQUEST for address 160 is answered with a NAK and the
server state is unchanged — the handler neither renews the MAC-bound lease nor
calls `RequestIP`. -/
theorem C1_counterexample :
    lookupA srvC1.pool.macToIP "aa:bb:cc:dd:ee:01" = some 150 ∧
    pktC1.clientMAC = "aa:bb:cc:dd:ee:01" ∧ pktC1.requestedIP = some 160 ∧
    srvC1.handleRequest 10 pktC1 = (ReqResult.nak "租约不存在", srvC1) := by
  refine ⟨rfl, rfl, rfl, ?_⟩
  decide

/-- C1 (amended): on a REQUEST whose server-identifier check passes, the
handler looks the lease up by the requested IP (never by the client MAC, and
never through `RequestIP`): if no lease sits on that IP, or its MAC differs
from the client's, the reply is a NAK and the state is unchanged — even when
the client's MAC holds a pool lease on another IP; if the lease on that IP
belongs to the client, the reply is an ACK of that same IP, with `startTime`
refreshed exactly when the lease is dynamic. -/
theorem C1_request_is_looked_up_by_ip (s : Server) (now : Time) (req : DHCPPacket)
    (rip : Nat) (hsid : req.serverIdentifier = none)
    (hrip : req.requestedIP = some rip) (h0 : rip ≠ 0) :
    (lookupA s.pool.leases rip = none →
      s.handleRequest now req = (.nak "租约不存在", s)) ∧
    (∀ l, lookupA s.pool.leases rip = some l → l.mac ≠ req.clientMAC →
      s.handleRequest now req = (.nak "租约不存在", s)) ∧
    (∀ l, lookupA s.pool.leases rip = some l → l.mac = req.clientMAC →
      (s.handleRequest now req).1 = .ack l.ip ∧
      ∃ l2, lookupA (s.handleRequest now req).2.pool.leases rip = some l2 ∧
        l2.ip = l.ip ∧ l2.mac = l.mac ∧ l2.isStatic = l.isStatic ∧
        l2.startTime = (if l.isStatic = true then l.startTime else now)) := by
  have hbody : s.handleRequest now req = s.handleRequestBody now req := by
    unfold Server.handleRequest
    rw [hsid]
  refine ⟨?_, ?_, ?_⟩
  · intro hl
    rw [hbody]
    unfold Server.handleRequestBody
    rw [hrip]
    simp only [if_neg h0, hl]
  · intro l hl hmac
    rw [hbody]
    unfold Server.handleRequestBody
    rw [hrip]
    simp only [if_neg h0, hl]
    rw [if_pos hmac]
  · intro l hl hmac
    rw [hbody]
    unfold Server.handleRequestBody
    rw [hrip]
    simp only [if_neg h0, hl]
    rw [if_neg (by simp [hmac])]
    dsimp only
    rw [addHistory_pool]
    dsimp only
    constructor
    · rw [updateGatewayIP_ip]
      cases hstat : l.isStatic <;> simp [hstat]
    · refine ⟨_, lookupA_insertA_self s.pool.leases rip _, ?_, ?_, ?_, ?_⟩
      · rw [updateGatewayIP_ip]
        cases hstat : l.isStatic <;> simp [hstat]
      · rw [updateGatewayIP_mac]
        cases hstat : l.isStatic <;> simp [hstat]
      · rw [updateGatewayIP_isStatic]
        cases hstat : l.isStatic <;> simp [hstat]
      · rw [updateGatewayIP_startTime]
        cases hstat : l.isStatic <;> simp [hstat]

/-- C1 witness: the amended theorem applied to the concrete state of the
counterexample. -/
theorem C1_request_is_looked_up_by_ip_witness :
    srvC1.handleRequest 10 pktC1 = (ReqResult.nak "租约不存在", srvC1) :=
  (C1_request_is_looked_up_by_ip srvC1 10 pktC1 160 rfl rfl (by decide)).1 (by decide)

/-! ## C2: the DECLINE path -/

/-- C2 counterexample: after the MAC aa:bb:cc:dd:ee:01 declines address 150,
its lease on 150 is still present, the MAC is still indexed, and the conflict
set is still empty — nothing was released and nothing was quarantined. -/
theorem C2_counterexample :
    pktC2.clientMAC = "aa:bb:cc:dd:ee:01" ∧ pktC2.requestedIP = some 150 ∧
    lookupA (srvC1.handleDecline 5 pktC2).pool.leases 150 = some leaseC1 ∧
    lookupA (srvC1.handleDecline 5 pktC2).pool.macToIP "aa:bb:cc:dd:ee:01" = some 150 ∧
    (srvC1.handleDecline 5 pktC2).pool.conflictIPs = [] := by
  decide

/-- C2 (amended): a DECLINE appends exactly one history record (action
`DECLINE`, the sender's MAC) and does nothing else — the pool, and with it the
sender's lease and the conflict set, is left untouched; neither `ReleaseIP`
nor `MarkIPAsConflict` is invoked. -/
theorem C2_decline_records_history_only (s : Server) (now : Time) (req : DHCPPacket) :
    (s.handleDecline now req).pool = s.pool ∧
    (s.handleDecline now req).cfg = s.cfg ∧
    ∃ r : HistoryRecord, r.action = "DECLINE" ∧ r.mac = req.clientMAC ∧
      (s.handleDecline now req).history =
        (if s.maxHistory < (s.history ++ [r]).length
         then (s.history ++ [r]).drop ((s.history ++ [r]).length - s.maxHistory)
         else s.history ++ [r]) := by
  refine ⟨rfl, rfl,
    ⟨{ ip := (match req.requestedIP with | some r => ipStr r | none => "<nil>"),
       mac := req.clientMAC, hostname := req.hostname, action := "DECLINE",
       timestamp := now, gateway := "", serverIP := ipStr s.serverIP },
     rfl, rfl, rfl⟩⟩

/-! ## C4: the server-identifier check -/

/-- C4 counterexample: `allow_any_server_ip` is `true`, the requested address
150 even holds a matching lease for the client, yet a REQUEST carrying the
foreign server identifier 999 is still dropped silently — the flag does not
disable the check. -/
theorem C4_counterexample :
    srvC4.cfg.server.allowAnyServerIP = true ∧
    pktC4.serverIdentifier = some 999 ∧ srvC4.serverIP = 1 ∧
    lookupA srvC4.pool.leases 150 = some leaseC1 ∧
    leaseC1.mac = pktC4.clientMAC ∧
    srvC4.handleRequest 0 pktC4 = (ReqResult.drop, srvC4) := by
  decide

/-- C4 (amended): a REQUEST whose server identifier is present and differs
from our server IP is always dropped silently, for every server state —
`ServerConfig.AllowAnyServerIP` is defined in the config model but never
consulted by `handleRequest`. -/
theorem C4_foreign_server_id_always_dropped (s : Server) (now : Time) (req : DHCPPacket)
    (sid : Nat) (hs : req.serverIdentifier = some sid) (hne : sid ≠ s.serverIP) :
    s.handleRequest now req = (.drop, s) := by
  unfold Server.handleRequest
  rw [hs]
  simp only [if_pos hne]

/-- C4 witness: the amended theorem applied to the allow-any-server-IP fixture. -/
theorem C4_foreign_server_id_always_dropped_witness :
    srvC4.cfg.server.allowAnyServerIP = true ∧
    srvC4.handleRequest 0 pktC4 = (ReqResult.drop, srvC4) :=
  ⟨by decide, C4_foreign_server_id_always_dropped srvC4 0 pktC4 999 rfl (by decide)⟩

/-! ## C3: pool construction -/

theorem initStaticBindings_isSome (now : Time) :
    ∀ (bs : List MACBinding) (pool : IPPool),
      (initStaticBindings now pool bs).isSome = true ↔
        ∀ b ∈ bs, b.ip.isSome = true ∧ (parseMAC b.mac).isSome = true := by
  intro bs
  induction bs with
  | nil => intro pool; simp [initStaticBindings]
  | cons b rest ih =>
    intro pool
    cases hip : b.ip with
    | none => simp [initStaticBindings, hip]
    | some ip =>
      cases hm : parseMAC b.mac with
      | none => simp [initStaticBindings, hip, hm]
      | some m => simp [initStaticBindings, hip, hm, ih]

theorem initStaticBindings_preserves (now : Time) :
    ∀ (bs : List MACBinding) (pool pool' : IPPool),
      initStaticBindings now pool bs = some pool' →
      (∀ k : Nat, (∀ b ∈ bs, b.ip ≠ some k) →
        lookupA pool'.leases k = lookupA pool.leases k) ∧
      (∀ mk : String, (∀ b ∈ bs, parseMAC b.mac ≠ some mk) →
        lookupA pool'.macToIP mk = lookupA pool.macToIP mk) := by
  intro bs
  induction bs with
  | nil =>
    intro pool pool' h
    obtain rfl : pool = pool' := by
      simpa [initStaticBindings] using h
    exact ⟨fun _ _ => rfl, fun _ _ => rfl⟩
  | cons b rest ih =>
    intro pool pool' h
    cases hip : b.ip with
    | none => rw [initStaticBindings, hip] at h; exact absurd h (by simp)
    | some ip =>
      cases hm : parseMAC b.mac with
      | none => rw [initStaticBindings, hip, hm] at h; exact absurd h (by simp)
      | some m =>
        rw [initStaticBindings, hip, hm] at h
        obtain ⟨hL, hM⟩ := ih _ _ h
        constructor
        · intro k hk
          rw [hL k (fun b2 hb2 => hk b2 (List.mem_cons_of_mem _ hb2))]
          refine lookupA_insertA_ne _ _ (fun e => ?_)
          exact hk b (List.mem_cons_self _ _) (by rw [hip, e])
        · intro mk hmk
          rw [hM mk (fun b2 hb2 => hmk b2 (List.mem_cons_of_mem _ hb2))]
          refine lookupA_insertA_ne _ _ (fun e => ?_)
          exact hmk b (List.mem_cons_self _ _) (by rw [hm, e])

theorem initStaticBindings_materializes (now : Time) :
    ∀ (bs : List MACBinding) (pool pool' : IPPool),
      initStaticBindings now pool bs = some pool' →
      bs.Pairwise (fun b1 b2 => b1.ip ≠ b2.ip ∧ parseMAC b1.mac ≠ parseMAC b2.mac) →
      ∀ b ∈ bs, ∀ ip m, b.ip = some ip → parseMAC b.mac = some m →
        lookupA pool'.leases ip =
          some { ip := ip, mac := m, hostname := b.hostname, startTime := now,
                 leaseTime := 0, isStatic := true, gateway := b.gateway,
                 gatewayIP := "" } ∧
        lookupA pool'.macToIP m = some ip := by
  intro bs
  induction bs with
  | nil => intro pool pool' _ _ b hb; exact absurd hb (by simp)
  | cons b1 rest ih =>
    intro pool pool' h hpw b hb ip m hip hm
    rw [List.pairwise_cons] at hpw
    obtain ⟨hhead, htail⟩ := hpw
    rcases List.mem_cons.mp hb with rfl | hbr
    · -- b is the head binding: later bindings touch neither of its keys
      rw [initStaticBindings, hip, hm] at h
      obtain ⟨hL, hM⟩ := initStaticBindings_preserves now rest _ _ h
      constructor
      · rw [hL ip (fun b2 hb2 e => (hhead b2 hb2).1 (by rw [hip, e]))]
        exact lookupA_insertA_self _ _ _
      · rw [hM m (fun b2 hb2 e => (hhead b2 hb2).2 (by rw [hm, e]))]
        exact lookupA_insertA_self _ _ _
    · cases hip1 : b1.ip with
      | none => rw [initStaticBindings, hip1] at h; exact absurd h (by simp)
      | some ip1 =>
        cases hm1 : parseMAC b1.mac with
        | none => rw [initStaticBindings, hip1, hm1] at h; exact absurd h (by simp)
        | some m1 =>
          rw [initStaticBindings, hip1, hm1] at h
          exact ih _ _ h htail b hbr ip m hip hm

/-- C3 counterexample: `cfgC3` holds two reservations sharing IP 150 and
`cfgC3m` two reservations sharing the MAC aa:bb:cc:dd:ee:10, all with valid
syntax, yet `NewIPPool` succeeds on both — uniqueness is not enforced. -/
theorem C3_counterexample :
    bindDup1.ip = some 150 ∧ bindDup2.ip = some 150 ∧ bindDup1 ≠ bindDup2 ∧
    cfgC3.bindings = [bindDup1, bindDup2] ∧
    (NewIPPool cfgC3 0).isSome = true ∧
    bindDup1.mac = bindDup3.mac ∧ bindDup1 ≠ bindDup3 ∧
    cfgC3m.bindings = [bindDup1, bindDup3] ∧
    (NewIPPool cfgC3m 0).isSome = true := by
  decide

/-- C3 (amended): `NewIPPool` materializes reservations as static leases and
fails exactly when `start_ip`/`end_ip` or some reservation's IP or MAC is
syntactically invalid; duplicate reservation IPs or MACs are *not* rejected —
a later reservation silently overwrites the earlier one's map entries.  When
the reservations are pairwise distinct in IP and MAC, every one of them is
materialized as a static lease with both indexes set. -/
theorem C3_construct_validates_syntax_only (cfg : Config) (now : Time) :
    ((NewIPPool cfg now).isSome = true ↔
      (cfg.network.startIP.isSome = true ∧ cfg.network.endIP.isSome = true ∧
        ∀ b ∈ cfg.bindings, b.ip.isSome = true ∧ (parseMAC b.mac).isSome = true)) ∧
    (∀ pool, NewIPPool cfg now = some pool →
      cfg.bindings.Pairwise
        (fun b1 b2 => b1.ip ≠ b2.ip ∧ parseMAC b1.mac ≠ parseMAC b2.mac) →
      ∀ b ∈ cfg.bindings, ∀ ip m, b.ip = some ip → parseMAC b.mac = some m →
        lookupA pool.leases ip =
          some { ip := ip, mac := m, hostname := b.hostname, startTime := now,
                 leaseTime := 0, isStatic := true, gateway := b.gateway,
                 gatewayIP := "" } ∧
        lookupA pool.macToIP m = some ip) := by
  constructor
  · cases hs : cfg.network.startIP with
    | none => simp [NewIPPool, hs]
    | some sip =>
      cases he : cfg.network.endIP with
      | none => simp [NewIPPool, hs, he]
      | some eip => simp [NewIPPool, hs, he, initStaticBindings_isSome]
  · intro pool hpool hpw b hb ip m hip hm
    cases hs : cfg.network.startIP with
    | none => rw [NewIPPool, hs] at hpool; exact absurd hpool (by simp)
    | some sip =>
      cases he : cfg.network.endIP with
      | none => rw [NewIPPool, hs, he] at hpool; exact absurd hpool (by simp)
      | some eip =>
        rw [NewIPPool, hs, he] at hpool
        exact initStaticBindings_materializes now cfg.bindings _ _ hpool hpw b hb ip m hip hm

/-- C3 witness: the amended theorem applied to a config with two distinct
valid reservations: construction succeeds and both are materialized. -/
theorem C3_construct_validates_syntax_only_witness :
    (NewIPPool cfgC3w 0).isSome = true ∧
    lookupA ((NewIPPool cfgC3w 0).getD emptyPool).leases 120 =
      some { ip := 120, mac := "aa:bb:cc:dd:ee:20", hostname := "wh1", startTime := 0,
             leaseTime := 0, isStatic := true, gateway := "", gatewayIP := "" } := by
  have h1 := (C3_construct_validates_syntax_only cfgC3w 0).1.mpr (by decide)
  have h2 := (C3_construct_validates_syntax_only cfgC3w 0).2
    ((NewIPPool cfgC3w 0).getD emptyPool) (by decide)
    (by decide) bindW1 (by decide) 120 "aa:bb:cc:dd:ee:20" (by decide) (by decide)
  exact ⟨h1, h2.1⟩

/-! ## C5: allocation stays in range, except static leases -/

theorem dynamicInRange_lookup {pool : IPPool} (hdyn : pool.dynamicInRange = true)
    {ip : Nat} {l : IPLease} (hl : lookupA pool.leases ip = some l)
    (hst : l.isStatic = false) :
    pool.startIP ≤ l.ip ∧ l.ip ≤ pool.endIP := by
  have hmem := lookupA_mem hl
  rw [IPPool.dynamicInRange, List.all_eq_true] at hdyn
  have hx := hdyn _ hmem
  rw [hst] at hx
  simpa using hx

theorem requestNewIP_fresh (pool : IPPool) (now : Time) (macStr hn : String)
    (rq : Option Nat) :
    ∀ l, (pool.requestNewIP now macStr rq hn).1 = some l →
      l.isStatic = false ∧ pool.startIP ≤ l.ip ∧ l.ip ≤ pool.endIP := by
  intro l h
  unfold IPPool.requestNewIP at h
  cases rq with
  | none =>
    dsimp only at h
    cases hf : pool.findAvailableIP now with
    | none => rw [hf] at h; exact absurd h (by simp)
    | some newIP =>
      rw [hf] at h
      dsimp only at h
      injection h with hval
      subst hval
      obtain ⟨h1, h2, _⟩ := findAvailableIP_some hf
      exact ⟨rfl, h1, h2⟩
  | some rip =>
    dsimp only at h
    by_cases hg : (decide (rip ≠ 0) && pool.isIPInRange rip && pool.isIPAvailable now rip) = true
    · rw [if_pos hg] at h
      dsimp only at h
      injection h with hval
      subst hval
      have hin : pool.isIPInRange rip = true := by
        simp only [Bool.and_eq_true] at hg
        exact hg.1.2
      rw [IPPool.isIPInRange] at hin
      simp only [Bool.and_eq_true, decide_eq_true_eq] at hin
      exact ⟨rfl, hin.1, hin.2⟩
    · rw [if_neg hg] at h
      cases hf : pool.findAvailableIP now with
      | none => rw [hf] at h; exact absurd h (by simp)
      | some newIP =>
        rw [hf] at h
        dsimp only at h
        injection h with hval
        subst hval
        obtain ⟨h1, h2, _⟩ := findAvailableIP_some hf
        exact ⟨rfl, h1, h2⟩

/-- C5 counterexample: the reservation at address 300 lies outside the pool
range [100, 200], construction succeeds, and `RequestIP` for its MAC returns
the out-of-range address 300. -/
theorem C5_counterexample :
    NewIPPool cfgC5 0 = some poolC5 ∧
    poolC5.startIP = 100 ∧ poolC5.endIP = 200 ∧
    ((poolC5.RequestIP 1 "aa:bb:cc:dd:ee:10" none "h").1.map IPLease.ip) = some 300 ∧
    poolC5.isIPInRange 300 = false := by
  decide

/-- C5 (amended): `RequestIP` either fails or returns a lease that is static
(static leases are handed back verbatim and may lie outside the range) or
whose IP lies inside the inclusive range [startIP, endIP]; in particular, in a
pool whose dynamic leases are all in range, every dynamic lease it returns is
in range. -/
theorem C5_requestIP_in_range_unless_static (pool : IPPool) (now : Time)
    (mac hn : String) (rq : Option Nat) (hdyn : pool.dynamicInRange = true) :
    ∀ l, (pool.RequestIP now mac rq hn).1 = some l →
      l.isStatic = true ∨ (pool.startIP ≤ l.ip ∧ l.ip ≤ pool.endIP) := by
  intro l h
  unfold IPPool.RequestIP at h
  cases hpm : parseMAC mac with
  | none => rw [hpm] at h; exact absurd h (by simp)
  | some macStr =>
    rw [hpm] at h
    dsimp only at h
    cases hmi : lookupA pool.macToIP macStr with
    | none =>
      rw [hmi] at h
      dsimp only at h
      exact Or.inr (requestNewIP_fresh pool now macStr hn rq l h).2
    | some existingIP =>
      rw [hmi] at h
      dsimp only at h
      cases hle : lookupA pool.leases existingIP with
      | none =>
        rw [hle] at h
        dsimp only at h
        exact Or.inr (requestNewIP_fresh _ now macStr hn rq l h).2
      | some lease =>
        rw [hle] at h
        dsimp only at h
        cases hst : lease.isStatic with
        | true =>
          rw [hst] at h
          simp only [if_true] at h
          obtain rfl : lease = l := by injection h
          exact Or.inl hst
        | false =>
          rw [hst] at h
          simp only [Bool.false_eq_true, if_false] at h
          cases hexp : lease.IsExpired now with
          | true =>
            rw [hexp] at h
            simp only [if_true] at h
            exact Or.inr (requestNewIP_fresh _ now macStr hn rq l h).2
          | false =>
            rw [hexp] at h
            simp only [Bool.false_eq_true, if_false] at h
            cases hc : lookupA pool.conflictIPs existingIP with
            | some t =>
              rw [hc] at h
              dsimp only at h
              exact Or.inr (requestNewIP_fresh _ now macStr hn rq l h).2
            | none =>
              rw [hc] at h
              dsimp only at h
              injection h with hval
              have hb := dynamicInRange_lookup hdyn hle hst
              refine Or.inr ?_
              rw [← hval]
              exact hb

/-- C5 witness: the amended theorem applied to a renewal on an in-range pool. -/
theorem C5_requestIP_in_range_unless_static_witness :
    ({ leaseC8 with startTime := 50, hostname := "new" } : IPLease).isStatic = true ∨
      (poolC8.startIP ≤ ({ leaseC8 with startTime := 50, hostname := "new" } : IPLease).ip ∧
       ({ leaseC8 with startTime := 50, hostname := "new" } : IPLease).ip ≤ poolC8.endIP) :=
  C5_requestIP_in_range_unless_static poolC8 50 "aa:bb:cc:dd:ee:08" "new" (some 199)
    (by decide) _ (by decide)

/-! ## C6: the conflict set -/

theorem wellKeyed_lookup {pool : IPPool} (hwf : pool.wellKeyed = true) {ip : Nat}
    {l : IPLease} (hl : lookupA pool.leases ip = some l) : l.ip = ip := by
  have hmem := lookupA_mem hl
  rw [IPPool.wellKeyed, List.all_eq_true] at hwf
  have hx := hwf _ hmem
  simpa using hx

theorem isIPAvailable_conflict_none {pool : IPPool} {now : Time} {ip : Nat}
    (h : pool.isIPAvailable now ip = true) : lookupA pool.conflictIPs ip = none := by
  rw [IPPool.isIPAvailable] at h
  cases hc : lookupA pool.conflictIPs ip with
  | none => rfl
  | some t => rw [hc] at h; exact absurd h (by simp)

theorem requestNewIP_available (pool : IPPool) (now : Time) (macStr hn : String)
    (rq : Option Nat) :
    ∀ l, (pool.requestNewIP now macStr rq hn).1 = some l →
      pool.isIPAvailable now l.ip = true := by
  intro l h
  unfold IPPool.requestNewIP at h
  cases rq with
  | none =>
    dsimp only at h
    cases hf : pool.findAvailableIP now with
    | none => rw [hf] at h; exact absurd h (by simp)
    | some newIP =>
      rw [hf] at h
      dsimp only at h
      injection h with hval
      subst hval
      exact (findAvailableIP_some hf).2.2
  | some rip =>
    dsimp only at h
    by_cases hg : (decide (rip ≠ 0) && pool.isIPInRange rip && pool.isIPAvailable now rip) = true
    · rw [if_pos hg] at h
      dsimp only at h
      injection h with hval
      subst hval
      simp only [Bool.and_eq_true] at hg
      exact hg.2
    · rw [if_neg hg] at h
      cases hf : pool.findAvailableIP now with
      | none => rw [hf] at h; exact absurd h (by simp)
      | some newIP =>
        rw [hf] at h
        dsimp only at h
        injection h with hval
        subst hval
        exact (findAvailableIP_some hf).2.2

theorem requestNewIP_conflictIPs (pool : IPPool) (now : Time) (macStr hn : String)
    (rq : Option Nat) :
    (pool.requestNewIP now macStr rq hn).2.conflictIPs = pool.conflictIPs := by
  unfold IPPool.requestNewIP
  cases rq with
  | none =>
    dsimp only
    cases hf : pool.findAvailableIP now <;> simp [hf, IPPool.allocateIP]
  | some rip =>
    dsimp only
    by_cases hg : (decide (rip ≠ 0) && pool.isIPInRange rip && pool.isIPAvailable now rip) = true
    · rw [if_pos hg]; rfl
    · rw [if_neg hg]
      cases hf : pool.findAvailableIP now <;> simp [hf, IPPool.allocateIP]

theorem RequestIP_conflictIPs (pool : IPPool) (now : Time) (mac hn : String)
    (rq : Option Nat) :
    (pool.RequestIP now mac rq hn).2.conflictIPs = pool.conflictIPs := by
  unfold IPPool.RequestIP
  cases hpm : parseMAC mac with
  | none => rfl
  | some macStr =>
    dsimp only
    cases hmi : lookupA pool.macToIP macStr with
    | none =>
      dsimp only
      exact requestNewIP_conflictIPs pool now macStr hn rq
    | some existingIP =>
      dsimp only
      cases hle : lookupA pool.leases existingIP with
      | none =>
        dsimp only
        exact requestNewIP_conflictIPs _ now macStr hn rq
      | some lease =>
        dsimp only
        cases hst : lease.isStatic with
        | true => rfl
        | false =>
          simp only [Bool.false_eq_true, if_false]
          cases hexp : lease.IsExpired now with
          | true =>
            simp only [if_true]
            exact requestNewIP_conflictIPs _ now macStr hn rq
          | false =>
            simp only [Bool.false_eq_true, if_false]
            cases hc : lookupA pool.conflictIPs existingIP with
            | some t =>
              dsimp only
              exact requestNewIP_conflictIPs _ now macStr hn rq
            | none => rfl

theorem ReleaseIP_conflictIPs (pool : IPPool) (mac : String) :
    (pool.ReleaseIP mac).2.conflictIPs = pool.conflictIPs := by
  unfold IPPool.ReleaseIP
  cases parseMAC mac with
  | none => rfl
  | some macStr =>
    dsimp only
    cases lookupA pool.macToIP macStr with
    | none => rfl
    | some ipStr =>
      dsimp only
      cases lookupA pool.leases ipStr with
      | none => rfl
      | some lease =>
        dsimp only
        cases lease.isStatic <;> rfl

/-- C6 counterexample: address 150 carries a static lease; it is marked as a
conflict at time 0, and at time 1 — the lease never released, the 1-hour TTL
far from elapsed — `RequestIP` for the bound MAC nevertheless returns 150. -/
theorem C6_counterexample :
    lookupA poolC6m.conflictIPs 150 = some 0 ∧
    lookupA poolC6m.leases 150 = some staticL6 ∧
    ((poolC6m.RequestIP 1 "aa:bb:cc:dd:ee:10" none "h").1.map IPLease.ip) = some 150 := by
  decide

/-- C6 (amended): while an address sits in the conflict set, `RequestIP` can
return it only as a static lease (the static-binding branch ignores the
conflict set); every dynamic path — renewal, requested IP, linear scan —
refuses it.  Moreover neither `RequestIP` nor `ReleaseIP` ever shrinks the
conflict set, and `CleanupExpiredLeases` keeps the entry while the 1-hour TTL
has not elapsed, so the quarantine indeed lasts until cleanup runs after the
TTL. -/
theorem C6_conflict_blocks_dynamic_paths (pool : IPPool) (now : Time) (rip : Nat)
    (mac hn : String) (rq : Option Nat) (t : Time)
    (hwf : pool.wellKeyed = true)
    (hc : lookupA pool.conflictIPs rip = some t) :
    (∀ l, (pool.RequestIP now mac rq hn).1 = some l → l.ip = rip →
      l.isStatic = true) ∧
    (pool.RequestIP now mac rq hn).2.conflictIPs = pool.conflictIPs ∧
    (pool.ReleaseIP mac).2.conflictIPs = pool.conflictIPs ∧
    (∀ now' : Time, ¬(t < now' - 3600) →
      lookupA (pool.CleanupExpiredLeases now').conflictIPs rip = some t) := by
  refine ⟨?_, RequestIP_conflictIPs pool now mac hn rq,
    ReleaseIP_conflictIPs pool mac, ?_⟩
  · intro l h hip
    unfold IPPool.RequestIP at h
    cases hpm : parseMAC mac with
    | none => rw [hpm] at h; exact absurd h (by simp)
    | some macStr =>
      rw [hpm] at h
      dsimp only at h
      cases hmi : lookupA pool.macToIP macStr with
      | none =>
        rw [hmi] at h
        dsimp only at h
        have hav := requestNewIP_available pool now macStr hn rq l h
        have hcn : lookupA pool.conflictIPs l.ip = none := isIPAvailable_conflict_none hav
        rw [hip, hc] at hcn
        exact absurd hcn (by simp)
      | some existingIP =>
        rw [hmi] at h
        dsimp only at h
        cases hle : lookupA pool.leases existingIP with
        | none =>
          rw [hle] at h
          dsimp only at h
          have hav := requestNewIP_available _ now macStr hn rq l h
          have hcn : lookupA (pool.dropLease existingIP macStr).conflictIPs l.ip = none :=
            isIPAvailable_conflict_none hav
          have hcn2 : lookupA pool.conflictIPs l.ip = none := hcn
          rw [hip, hc] at hcn2
          exact absurd hcn2 (by simp)
        | some lease =>
          rw [hle] at h
          dsimp only at h
          cases hst : lease.isStatic with
          | true =>
            rw [hst] at h
            simp only [if_true] at h
            injection h with hval
            rw [← hval]
            exact hst
          | false =>
            rw [hst] at h
            simp only [Bool.false_eq_true, if_false] at h
            cases hexp : lease.IsExpired now with
            | true =>
              rw [hexp] at h
              simp only [if_true] at h
              have hav := requestNewIP_available _ now macStr hn rq l h
              have hcn : lookupA (pool.dropLease existingIP macStr).conflictIPs l.ip = none :=
                isIPAvailable_conflict_none hav
              have hcn2 : lookupA pool.conflictIPs l.ip = none := hcn
              rw [hip, hc] at hcn2
              exact absurd hcn2 (by simp)
            | false =>
              rw [hexp] at h
              simp only [Bool.false_eq_true, if_false] at h
              cases hcon : lookupA pool.conflictIPs existingIP with
              | some t2 =>
                rw [hcon] at h
                dsimp only at h
                have hav := requestNewIP_available _ now macStr hn rq l h
                have hcn : lookupA (pool.dropLease existingIP macStr).conflictIPs l.ip = none :=
                  isIPAvailable_conflict_none hav
                have hcn2 : lookupA pool.conflictIPs l.ip = none := hcn
                rw [hip, hc] at hcn2
                exact absurd hcn2 (by simp)
              | none =>
                rw [hcon] at h
                dsimp only at h
                injection h with hval
                have hkey := wellKeyed_lookup hwf hle
                have hlip : l.ip = lease.ip := by rw [← hval]
                rw [hlip, hkey] at hip
                rw [hip] at hcon
                rw [hcon] at hc
                exact absurd hc (by simp)
  · intro now' htl
    unfold IPPool.CleanupExpiredLeases IPPool.cleanupConflictIPs
    dsimp only
    refine lookupA_filter _ hc ?_
    simp [htl]

/-- C6 witness: the amended theorem applied to the conflicted static pool. -/
theorem C6_conflict_blocks_dynamic_paths_witness :
    staticL6.isStatic = true ∧
    (poolC6m.RequestIP 1 "aa:bb:cc:dd:ee:10" none "h").2.conflictIPs =
      poolC6m.conflictIPs :=
  ⟨(C6_conflict_blocks_dynamic_paths poolC6m 1 150 "aa:bb:cc:dd:ee:10" "h" none 0
      (by decide) (by decide)).1 staticL6 (by decide) (by decide),
   (C6_conflict_blocks_dynamic_paths poolC6m 1 150 "aa:bb:cc:dd:ee:10" "h" none 0
      (by decide) (by decide)).2.1⟩

/-! ## C7: gateway selection -/

theorem IsGatewayHealthy_in_names (cfg : Config) (status : List (String × Bool))
    (hkeys : status.all (fun p => cfg.gateways.any (fun g => g.name == p.1)) = true)
    {name : String} (hh : IsGatewayHealthy status name = true) :
    ∃ g ∈ cfg.gateways, g.name = name := by
  rw [IsGatewayHealthy] at hh
  cases hl : lookupA status name with
  | none => rw [hl] at hh; exact absurd hh (by simp)
  | some b =>
    have hmem := lookupA_mem hl
    rw [List.all_eq_true] at hkeys
    have hx := hkeys _ hmem
    simp only [List.any_eq_true] at hx
    obtain ⟨g, hg, hgname⟩ := hx
    exact ⟨g, hg, by simpa using hgname⟩

theorem FindGatewayByName_of_mem (cfg : Config) {name : String}
    (h : ∃ g ∈ cfg.gateways, g.name = name) :
    ∃ g, cfg.FindGatewayByName name = some g ∧ g.name = name := by
  obtain ⟨g0, hg0, hname⟩ := h
  have hs : (cfg.gateways.find? (fun gw => gw.name == name)).isSome := by
    rw [List.find?_isSome]
    exact ⟨g0, hg0, by simp [hname]⟩
  obtain ⟨g, hg⟩ := Option.isSome_iff_exists.mp hs
  refine ⟨g, hg, ?_⟩
  simpa using List.find?_some hg

theorem GetDefaultGateway_some (cfg : Config)
    (hdef : (cfg.gateways.filter (fun g => g.isDefault)).length = 1) :
    ∃ d, cfg.GetDefaultGateway = some d ∧ d.isDefault = true := by
  have hex : ∃ g ∈ cfg.gateways, g.isDefault = true := by
    rcases hf : cfg.gateways.filter (fun g => g.isDefault) with _ | ⟨d, rest⟩
    · rw [hf] at hdef; simp at hdef
    · have hd : d ∈ cfg.gateways.filter (fun g => g.isDefault) := by
        rw [hf]; exact List.mem_cons_self _ _
      have hm := List.mem_filter.mp hd
      exact ⟨d, hm.1, hm.2⟩
  have hs : (cfg.gateways.find? (fun g => g.isDefault)).isSome := by
    rw [List.find?_isSome]
    obtain ⟨g, hg, hgd⟩ := hex
    exact ⟨g, hg, hgd⟩
  obtain ⟨d, hd⟩ := Option.isSome_iff_exists.mp hs
  exact ⟨d, hd, List.find?_some hd⟩

/-- C7: `GetHealthyGateway` returns the preferred gateway when it is non-empty
and marked healthy; otherwise the default gateway when that is healthy;
otherwise the first healthy gateway in configuration order; and when every
gateway is unhealthy it still returns a (non-null) gateway, namely the
default.  Stated for status maps whose keys are configured gateway names (the
checker only ever writes such keys) and configs with exactly one default. -/
theorem C7_gateway_selection (cfg : Config) (status : List (String × Bool))
    (preferred : String)
    (hdef : (cfg.gateways.filter (fun g => g.isDefault)).length = 1)
    (hkeys : status.all (fun p => cfg.gateways.any (fun g => g.name == p.1)) = true) :
    (preferred ≠ "" → IsGatewayHealthy status preferred = true →
      ∃ g, GetHealthyGateway cfg status preferred = some g ∧ g.name = preferred) ∧
    ((preferred = "" ∨ IsGatewayHealthy status preferred = false) →
      ∀ d, cfg.GetDefaultGateway = some d →
        (IsGatewayHealthy status d.name = true →
          GetHealthyGateway cfg status preferred = some d) ∧
        (IsGatewayHealthy status d.name = false →
          ∀ g, cfg.gateways.find? (fun gw => IsGatewayHealthy status gw.name) = some g →
            GetHealthyGateway cfg status preferred = some g) ∧
        (IsGatewayHealthy status d.name = false →
          (∀ g ∈ cfg.gateways, IsGatewayHealthy status g.name = false) →
          GetHealthyGateway cfg status preferred = some d)) ∧
    (GetHealthyGateway cfg status preferred).isSome = true := by
  obtain ⟨d0, hd0, _⟩ := GetDefaultGateway_some cfg hdef
  refine ⟨?_, ?_, ?_⟩
  · intro hne hh
    rw [GetHealthyGateway, if_pos (by simp [hne, hh])]
    exact FindGatewayByName_of_mem cfg (IsGatewayHealthy_in_names cfg status hkeys hh)
  · intro hcond d hd
    have hneg : ¬((decide (preferred ≠ "") && IsGatewayHealthy status preferred) = true) := by
      rcases hcond with rfl | hfalse
      · simp
      · simp [hfalse]
    refine ⟨?_, ?_, ?_⟩
    · intro hh
      rw [GetHealthyGateway, if_neg hneg, hd]
      dsimp only
      rw [if_pos hh]
    · intro hh g hg
      rw [GetHealthyGateway, if_neg hneg, hd]
      dsimp only
      rw [if_neg (by simp [hh]), hg]
    · intro hh hall
      have hnone : cfg.gateways.find? (fun gw => IsGatewayHealthy status gw.name) = none := by
        rw [List.find?_eq_none]
        intro g hg
        simp [hall g hg]
      rw [GetHealthyGateway, if_neg hneg, hd]
      dsimp only
      rw [if_neg (by simp [hh]), hnone]
  · by_cases hpref : (decide (preferred ≠ "") && IsGatewayHealthy status preferred) = true
    · rw [GetHealthyGateway, if_pos hpref]
      simp only [Bool.and_eq_true, decide_eq_true_eq] at hpref
      obtain ⟨g, hg, _⟩ :=
        FindGatewayByName_of_mem cfg (IsGatewayHealthy_in_names cfg status hkeys hpref.2)
      rw [hg]
      rfl
    · rw [GetHealthyGateway, if_neg hpref, hd0]
      dsimp only
      by_cases hh : IsGatewayHealthy status d0.name = true
      · rw [if_pos hh]; rfl
      · rw [if_neg hh]
        cases hfind : cfg.gateways.find? (fun gw => IsGatewayHealthy status gw.name) <;>
          simp [hfind]

/-- C7 witness: applied to a two-gateway config with every gateway unhealthy:
selection still returns the default gateway. -/
theorem C7_gateway_selection_witness :
    GetHealthyGateway cfgC7 statusC7 "wan2" = some gwA ∧
    (GetHealthyGateway cfgC7 statusC7 "wan2").isSome = true := by
  have h := C7_gateway_selection cfgC7 statusC7 "wan2" (by decide) (by decide)
  refine ⟨?_, h.2.2⟩
  exact (h.2.1 (Or.inr (by decide)) gwA (by decide)).2.2 (by decide) (by decide)

/-! ## C8: renewal idempotence on IP, freshness of the timestamp -/

/-- C8: re-invoking `RequestIP` for a MAC holding an unexpired, unconflicted
dynamic lease returns that very lease — same IP, whatever IP was requested —
with `startTime` set to the current time (and the hostname refreshed), and
stores the updated lease back under the same key. -/
theorem C8_renewal_same_ip_fresh_timestamp (pool : IPPool) (now : Time)
    (mac hn : String) (rq : Option Nat) (ip : Nat) (l : IPLease)
    (hparse : parseMAC mac = some mac)
    (hmap : lookupA pool.macToIP mac = some ip)
    (hl : lookupA pool.leases ip = some l)
    (hdyn : l.isStatic = false)
    (hexp : l.IsExpired now = false)
    (hconf : lookupA pool.conflictIPs ip = none) :
    (pool.RequestIP now mac rq hn).1 = some { l with startTime := now, hostname := hn } ∧
    lookupA (pool.RequestIP now mac rq hn).2.leases ip =
      some { l with startTime := now, hostname := hn } := by
  unfold IPPool.RequestIP
  simp only [hparse, hmap, hl, hdyn, hexp, hconf, Bool.false_eq_true, if_false]
  exact ⟨trivial, lookupA_insertA_self _ _ _⟩

/-- C8 witness: a concrete renewal on `poolC8`. -/
theorem C8_renewal_same_ip_fresh_timestamp_witness :
    (poolC8.RequestIP 50 "aa:bb:cc:dd:ee:08" (some 199) "new").1 =
      some { leaseC8 with startTime := 50, hostname := "new" } ∧
    lookupA (poolC8.RequestIP 50 "aa:bb:cc:dd:ee:08" (some 199) "new").2.leases 130 =
      some { leaseC8 with startTime := 50, hostname := "new" } :=
  C8_renewal_same_ip_fresh_timestamp poolC8 50 "aa:bb:cc:dd:ee:08" "new" (some 199)
    130 leaseC8 (by decide) (by decide) (by decide) (by decide) (by decide) (by decide)

/-! ## C9: static leases are immutable -/

theorem isIPAvailable_static_false {pool : IPPool} {now : Time} {ip : Nat} {l : IPLease}
    (hl : lookupA pool.leases ip = some l) (hst : l.isStatic = true) :
    pool.isIPAvailable now ip = false := by
  rw [IPPool.isIPAvailable]
  cases hc : lookupA pool.conflictIPs ip with
  | some t => rfl
  | none => rw [hl]; simp [hst]

theorem requestNewIP_preserves_static (pool : IPPool) (now : Time) (macStr hn : String)
    (rq : Option Nat) {ip : Nat} {l : IPLease}
    (hl : lookupA pool.leases ip = some l) (hst : l.isStatic = true) :
    lookupA (pool.requestNewIP now macStr rq hn).2.leases ip = some l := by
  have hunav : pool.isIPAvailable now ip = false := isIPAvailable_static_false hl hst
  have halloc : ∀ newIP, pool.isIPAvailable now newIP = true →
      lookupA (pool.allocateIP now newIP macStr hn).2.leases ip = some l := by
    intro newIP hav
    have hne : ¬(newIP = ip) := fun e => by rw [e, hunav] at hav; exact absurd hav (by simp)
    rw [IPPool.allocateIP]
    dsimp only
    rw [lookupA_insertA_ne _ _ hne]
    exact hl
  unfold IPPool.requestNewIP
  cases rq with
  | none =>
    dsimp only
    cases hf : pool.findAvailableIP now with
    | none => exact hl
    | some newIP => exact halloc newIP (findAvailableIP_some hf).2.2
  | some rip =>
    dsimp only
    by_cases hg : (decide (rip ≠ 0) && pool.isIPInRange rip && pool.isIPAvailable now rip) = true
    · rw [if_pos hg]
      refine halloc rip ?_
      simp only [Bool.and_eq_true] at hg
      exact hg.2
    · rw [if_neg hg]
      cases hf : pool.findAvailableIP now with
      | none => exact hl
      | some newIP => exact halloc newIP (findAvailableIP_some hf).2.2

theorem RequestIP_preserves_static (pool : IPPool) (now : Time) (mac hn : String)
    (rq : Option Nat) {ip : Nat} {l : IPLease}
    (hl : lookupA pool.leases ip = some l) (hst : l.isStatic = true) :
    lookupA (pool.RequestIP now mac rq hn).2.leases ip = some l := by
  unfold IPPool.RequestIP
  cases hpm : parseMAC mac with
  | none => exact hl
  | some macStr =>
    dsimp only
    cases hmi : lookupA pool.macToIP macStr with
    | none =>
      dsimp only
      exact requestNewIP_preserves_static pool now macStr hn rq hl hst
    | some existingIP =>
      dsimp only
      cases hle : lookupA pool.leases existingIP with
      | none =>
        dsimp only
        have hne : ¬(existingIP = ip) := fun e => by rw [e, hl] at hle; exact absurd hle (by simp)
        have hl2 : lookupA (pool.dropLease existingIP macStr).leases ip = some l := by
          rw [IPPool.dropLease]
          dsimp only
          rw [lookupA_eraseA_ne _ hne]
          exact hl
        exact requestNewIP_preserves_static _ now macStr hn rq hl2 hst
      | some lease =>
        dsimp only
        cases hls : lease.isStatic with
        | true => exact hl
        | false =>
          simp only [Bool.false_eq_true, if_false]
          have hne : ¬(existingIP = ip) := by
            intro e
            rw [e, hl] at hle
            injection hle with hv
            rw [hv, hls] at hst
            exact absurd hst (by simp)
          have hl2 : lookupA (pool.dropLease existingIP macStr).leases ip = some l := by
            rw [IPPool.dropLease]
            dsimp only
            rw [lookupA_eraseA_ne _ hne]
            exact hl
          cases hexp : lease.IsExpired now with
          | true =>
            simp only [if_true]
            exact requestNewIP_preserves_static _ now macStr hn rq hl2 hst
          | false =>
            simp only [Bool.false_eq_true, if_false]
            cases hc : lookupA pool.conflictIPs existingIP with
            | some t =>
              dsimp only
              exact requestNewIP_preserves_static _ now macStr hn rq hl2 hst
            | none =>
              dsimp only
              rw [lookupA_insertA_ne _ _ hne]
              exact hl

theorem ReleaseIP_preserves_static (pool : IPPool) (mac : String) {ip : Nat} {l : IPLease}
    (hl : lookupA pool.leases ip = some l) (hst : l.isStatic = true) :
    lookupA (pool.ReleaseIP mac).2.leases ip = some l := by
  unfold IPPool.ReleaseIP
  cases parseMAC mac with
  | none => exact hl
  | some macStr =>
    dsimp only
    cases hmi : lookupA pool.macToIP macStr with
    | none => exact hl
    | some ipStr =>
      dsimp only
      cases hle : lookupA pool.leases ipStr with
      | none => exact hl
      | some lease =>
        dsimp only
        cases hls : lease.isStatic with
        | true => exact hl
        | false =>
          simp only [Bool.false_eq_true, if_false]
          have hne : ¬(ipStr = ip) := by
            intro e
            rw [e, hl] at hle
            injection hle with hv
            rw [hv, hls] at hst
            exact absurd hst (by simp)
          rw [lookupA_eraseA_ne _ hne]
          exact hl

theorem Cleanup_preserves_static (pool : IPPool) (now : Time) {ip : Nat} {l : IPLease}
    (hl : lookupA pool.leases ip = some l) (hst : l.isStatic = true) :
    lookupA (pool.CleanupExpiredLeases now).leases ip = some l := by
  unfold IPPool.CleanupExpiredLeases IPPool.cleanupConflictIPs
  dsimp only
  exact lookupA_filter _ hl (by simp [hst])

theorem RemoveAll_preserves_static (pool : IPPool) (mac : String) {ip : Nat} {l : IPLease}
    (hl : lookupA pool.leases ip = some l) (hst : l.isStatic = true) :
    lookupA (pool.RemoveAllLeasesByMAC mac).2.leases ip = some l := by
  unfold IPPool.RemoveAllLeasesByMAC
  cases parseMAC mac with
  | none => exact hl
  | some macStr =>
    dsimp only
    have hstage : ∀ ls : List (Nat × IPLease), lookupA ls ip = some l →
        lookupA (ls.filter
          (fun p => !(p.2.mac == macStr && !p.2.isStatic))) ip = some l := by
      intro ls hl1
      exact lookupA_filter _ hl1 (by simp [hst])
    cases hmi : lookupA pool.macToIP macStr with
    | none =>
      dsimp only
      exact hstage pool.leases hl
    | some ipStr =>
      dsimp only
      cases hle : lookupA pool.leases ipStr with
      | none =>
        dsimp only
        exact hstage pool.leases hl
      | some lease =>
        dsimp only
        cases hls : lease.isStatic with
        | true =>
          simp only [Bool.not_true, Bool.false_eq_true, if_false]
          exact hstage pool.leases hl
        | false =>
          simp only [Bool.not_false, if_true]
          have hne : ¬(ipStr = ip) := by
            intro e
            rw [e, hl] at hle
            injection hle with hv
            rw [hv, hls] at hst
            exact absurd hst (by simp)
          refine hstage (eraseA pool.leases ipStr) ?_
          rw [lookupA_eraseA_ne _ hne]
          exact hl

theorem applyOp_preserves_static (pool : IPPool) (op : PoolOp) {ip : Nat} {l : IPLease}
    (hl : lookupA pool.leases ip = some l) (hst : l.isStatic = true) :
    lookupA (applyOp pool op).leases ip = some l := by
  cases op with
  | request now mac rq h => exact RequestIP_preserves_static pool now mac h rq hl hst
  | release mac => exact ReleaseIP_preserves_static pool mac hl hst
  | markConflict now ip2 => exact hl
  | cleanup now => exact Cleanup_preserves_static pool now hl hst
  | removeAll mac => exact RemoveAll_preserves_static pool mac hl hst

theorem applyOps_preserves_static (pool : IPPool) (ops : List PoolOp) {ip : Nat}
    {l : IPLease} (hl : lookupA pool.leases ip = some l) (hst : l.isStatic = true) :
    lookupA (applyOps pool ops).leases ip = some l := by
  induction ops generalizing pool with
  | nil => exact hl
  | cons op rest ih => exact ih _ (applyOp_preserves_static pool op hl hst)

/-- C9: (i) a static lease is never expired, at any time; (ii) `ReleaseIP` on a
MAC whose index entry points at a static lease returns the static-binding
error and leaves the entire pool — both index maps included — unchanged;
(iii) after any sequence of pool operations, every static lease entry is still
present, unmodified. -/
theorem C9_static_leases_immutable :
    (∀ (l : IPLease) (t : Time), l.isStatic = true → l.IsExpired t = false) ∧
    (∀ (pool : IPPool) (mac m : String) (ip : Nat) (l : IPLease),
      parseMAC mac = some m → lookupA pool.macToIP m = some ip →
      lookupA pool.leases ip = some l → l.isStatic = true →
      pool.ReleaseIP mac = (ReleaseResult.staticBinding, pool)) ∧
    (∀ (pool : IPPool) (ops : List PoolOp) (ip : Nat) (l : IPLease),
      lookupA pool.leases ip = some l → l.isStatic = true →
      lookupA (applyOps pool ops).leases ip = some l) := by
  refine ⟨?_, ?_, ?_⟩
  · intro l t hst
    rw [IPLease.IsExpired, if_pos hst]
  · intro pool mac m ip l hp hm hl hst
    unfold IPPool.ReleaseIP
    rw [hp]
    dsimp only
    rw [hm]
    dsimp only
    rw [hl]
    dsimp only
    rw [if_pos hst]
  · exact fun pool ops ip l hl hst => applyOps_preserves_static pool ops hl hst

/-- C9 witness: the static lease on 150 survives a six-operation sequence —
allocation, conflict marking, a request from its own MAC, a release attempt,
a forced removal and a cleanup far in the future. -/
theorem C9_static_leases_immutable_witness :
    staticL6.IsExpired 999999 = false ∧
    poolC9.ReleaseIP "aa:bb:cc:dd:ee:10" = (ReleaseResult.staticBinding, poolC9) ∧
    lookupA (applyOps poolC9 opsC9).leases 150 = some staticL6 :=
  ⟨C9_static_leases_immutable.1 staticL6 999999 (by decide),
   C9_static_leases_immutable.2.1 poolC9 "aa:bb:cc:dd:ee:10" "aa:bb:cc:dd:ee:10" 150
     staticL6 (by decide) (by decide) (by decide) (by decide),
   C9_static_leases_immutable.2.2 poolC9 opsC9 150 staticL6 (by decide) (by decide)⟩

/-! ## C10: fabricated sample history -/

/-- C10: immediately after `NewServer`, before any packet is handled, the
history already holds exactly the 9 fabricated sample records — every MAC
among aa:bb:cc:dd:ee:01 … :04 and every action among DISCOVER/REQUEST/RELEASE
— and `GetHistory` (no filters, limit 9) returns precisely these records,
newest first. -/
theorem C10_sample_history_preloaded (cfg : Config) (now : Time) (sip : Nat) (s : Server)
    (h : NewServer cfg now sip = some s) :
    s.history = sampleRecords now (ipStr sip) ∧
    s.history.length = 9 ∧
    (∀ r ∈ s.history,
      r.mac ∈ ["aa:bb:cc:dd:ee:01", "aa:bb:cc:dd:ee:02", "aa:bb:cc:dd:ee:03",
               "aa:bb:cc:dd:ee:04"] ∧
      r.action ∈ ["DISCOVER", "REQUEST", "RELEASE"]) ∧
    s.GetHistory 9 "" "" = s.history.reverse := by
  cases hp : NewIPPool cfg now with
  | none => rw [NewServer, hp] at h; exact absurd h (by simp)
  | some pool =>
    rw [NewServer, hp] at h
    dsimp only at h
    injection h with hs
    subst hs
    have hhist : (Server.addSampleHistory
        { cfg := cfg, pool := pool, status := initialStatus cfg, serverIP := sip,
          history := [], maxHistory := 1000 } now).history =
        sampleRecords now (ipStr sip) := by
      simp [Server.addSampleHistory]
    refine ⟨hhist, ?_, ?_, ?_⟩
    · rw [hhist]; simp [sampleRecords]
    · intro r hr
      rw [hhist] at hr
      simp only [sampleRecords, List.mem_cons, List.not_mem_nil, or_false] at hr
      rcases hr with rfl | rfl | rfl | rfl | rfl | rfl | rfl | rfl | rfl <;>
        exact ⟨by simp, by simp⟩
    · rw [Server.GetHistory, hhist]
      simp [sampleRecords]

/-- C10 witness: the concrete freshly-built server carries the 9 records. -/
theorem C10_sample_history_preloaded_witness :
    serverC10.history = sampleRecords 0 (ipStr 1) ∧
    serverC10.history.length = 9 ∧
    serverC10.GetHistory 9 "" "" = serverC10.history.reverse := by
  have h := C10_sample_history_preloaded cfgC10 0 1 serverC10 (by decide)
  exact ⟨h.1, h.2.1, h.2.2.2⟩

end DHCPServer
